import Mathlib

/-!
Verification of the People's Daily PDF downloader against its
natural-language specification.

The repository consists of two near-duplicate Python scripts
(`人民日报PDF下载工具.py`, a PyMuPDF variant, and
`人民日报PDF下载工具（单日、批量下载）.py`, a PyPDF2 variant) whose control
flow is identical in every function relevant to the claims below; where the
two variants differ materially this is noted at the definition concerned.
Each definition in this file is a shallow embedding of the correspondingly
named Python function; network traffic and the filesystem are supplied as
explicit oracle/environment values, and observable effects (attempt counts,
1-second sleeps, files written, workspace removal, exit codes) are returned
as explicit fields of the result.
-/

namespace RMRB

/-! ## String scanning utilities

`countOcc pat s` counts the non-overlapping, left-to-right occurrences of
`pat` in `s`, which is exactly `len(re.findall(pat, s))` for a literal
pattern such as `pageLink` or `nbs` (no metacharacters, no
self-overlap ambiguity under the leftmost scan). -/

def countOccGo (pat : List Char) : Nat → List Char → Nat
  | _, [] => 0
  | k + 1, _ :: rest => countOccGo pat k rest
  | 0, c :: rest =>
    if !pat.isEmpty && pat.isPrefixOf (c :: rest) then
      1 + countOccGo pat (pat.length - 1) rest
    else
      countOccGo pat 0 rest

def countOcc (pat : List Char) (s : List Char) : Nat :=
  countOccGo pat 0 s

/-- Substring test, modelling Python's `needle in haystack`. -/
def containsSub (pat s : List Char) : Bool :=
  countOcc pat s != 0

/-- The marker substring counted on the current-layout ("new") cover page. -/
def pageLinkPat : String := "pageLink"

/-- The marker substring counted on the legacy ("old") cover page. -/
def nbsPat : String := "nbs"

/-! ## `safe_request` (both variants, lines 151-170 / 155-173)

```python
def safe_request(url, proxies):
    for _ in range(MAX_RETRIES):          # MAX_RETRIES = 3
        try:
            response = requests.get(url, ...)
            if response.status_code == 200: return response
            if response.status_code == 404: return None
        except Exception as e:
            logger.warning(...)
            time.sleep(1)
    return None
```

The network is an oracle `net : Nat → AttemptOutcome` giving the outcome of
the i-th `requests.get` on this URL.  The result records the body returned
(`none` both for 404 and for exhaustion, as in the source), the number of
attempts actually issued, and the number of `time.sleep(1)` calls.  Note
that in the source only the `except` branch sleeps: a response with a
status other than 200/404 falls through and retries immediately. -/

inductive AttemptOutcome where
  | exc : AttemptOutcome
  | resp : Nat → List Char → AttemptOutcome
deriving DecidableEq

structure ReqResult where
  result : Option (List Char)
  attempts : Nat
  sleeps : Nat
deriving DecidableEq, Repr

def safeRequestGo (net : Nat → AttemptOutcome) (i : Nat) : Nat → ReqResult
  | 0 => ⟨none, 0, 0⟩
  | fuel + 1 =>
    match net i with
    | .resp s body =>
      if s = 200 then ⟨some body, 1, 0⟩
      else if s = 404 then ⟨none, 1, 0⟩
      else
        let r := safeRequestGo net (i + 1) fuel
        ⟨r.result, r.attempts + 1, r.sleeps⟩
    | .exc =>
      let r := safeRequestGo net (i + 1) fuel
      ⟨r.result, r.attempts + 1, r.sleeps + 1⟩

def MAX_RETRIES : Nat := 3

def safe_request (net : Nat → AttemptOutcome) : ReqResult :=
  safeRequestGo net 0 MAX_RETRIES

/-! ## `get_page_info` (both variants, lines 173-183 / 176-189)

```python
def get_page_info(old_url, new_url, proxies):
    if response := safe_request(new_url, proxies):
        if (pages := len(re.findall(r'pageLink', response.text))) > 0:
            return pages, True
    if response := safe_request(old_url, proxies):
        return len(re.findall(r'nbs', response.text)), False
    logger.error("无法获取报纸信息，请检查网络或日期")
    sys.exit(1)
```

The two probe results (the `safe_request` outcomes on the new-layout and
old-layout cover URLs; `none` covers both 404 and retry exhaustion) are
passed in directly.  The second component of the result is the probe log:
`true` stands for the current-layout cover, `false` for the legacy cover,
in the order the code issues the probes.  A `.error` result models the
`sys.exit(1)` call. -/

def errNoInfo : String := "无法获取报纸信息，请检查网络或日期"

def get_page_info (oldResp newResp : Option (List Char)) :
    Except String (Nat × Bool) × List Bool :=
  match newResp with
  | some t =>
    if 0 < countOcc pageLinkPat.toList t then
      (.ok (countOcc pageLinkPat.toList t, true), [true])
    else
      match oldResp with
      | some u => (.ok (countOcc nbsPat.toList u, false), [true, false])
      | none => (.error errNoInfo, [true, false])
  | none =>
    match oldResp with
    | some u => (.ok (countOcc nbsPat.toList u, false), [true, false])
    | none => (.error errNoInfo, [true, false])

/-! ## `download_pdf` (both variants, lines 186-216 / 191-221)

```python
def download_pdf(url, filename, temp_dir, progress, task_id, proxies):
    for retry in range(MAX_RETRIES):
        try:
            response = requests.get(url, headers=HEADERS, stream=True, ...)
            response.raise_for_status()
            if 'application/pdf' not in response.headers.get('Content-Type', ''):
                logger.warning(f"非PDF内容: ...")
                return False                      # leaves the WHOLE function
            ... stream body to file ...
            if os.path.getsize(file_path) >= 1024:
                return True
            # undersized: fall through, next iteration, no sleep
        except Exception as e:
            logger.warning(...)
            time.sleep(1)
    return False
```

One loop iteration is described by a `DLAttempt`: either the request (or
`raise_for_status`, or the streaming) raises — modelled atomically as
`exc`, which writes nothing — or a response arrives carrying a
`Content-Type` header, a streamed body size, and whether the streamed bytes
form a parsable PDF (the latter is only consumed downstream by the merge
step).  `written` is the file the loop leaves behind in the workspace at
the downloaded filename: `some (size, parses)` once an attempt streamed a
body (each retry overwrites the same path), `none` if no attempt got as far
as writing.  Note that the content-type branch `return False` exits the
whole function before writing and before any further attempt. -/

inductive DLAttempt where
  | exc : DLAttempt
  | resp : List Char → Nat → Bool → DLAttempt
deriving DecidableEq

structure DLResult where
  ok : Bool
  attemptsMade : Nat
  sleeps : Nat
  written : Option (Nat × Bool)
deriving DecidableEq, Repr

/-- Content-type marker tested by `'application/pdf' not in ...`. -/
def pdfCT : String := "application/pdf"

def downloadGo (net : Nat → DLAttempt) (i : Nat) (w : Option (Nat × Bool)) :
    Nat → DLResult
  | 0 => ⟨false, 0, 0, w⟩
  | fuel + 1 =>
    match net i with
    | .exc =>
      let r := downloadGo net (i + 1) w fuel
      ⟨r.ok, r.attemptsMade + 1, r.sleeps + 1, r.written⟩
    | .resp ct sz prs =>
      if containsSub pdfCT.toList ct = false then
        ⟨false, 1, 0, w⟩
      else if 1024 ≤ sz then
        ⟨true, 1, 0, some (sz, prs)⟩
      else
        let r := downloadGo net (i + 1) (some (sz, prs)) fuel
        ⟨r.ok, r.attemptsMade + 1, r.sleeps, r.written⟩

def download_pdf (net : Nat → DLAttempt) : DLResult :=
  downloadGo net 0 none MAX_RETRIES

/-! ## The date model (`validate_date_range`, both variants,
lines 110-138 / 109-142)

Python `datetime.date` values are triples `(y, m, d)`; `strptime` with
`%Y%m%d` accepts exactly the calendar-valid dates with `1 ≤ year ≤ 9999`
(an 8-digit string always yields a 4-digit year, so only the lower bound
matters), comparison of `date` objects is lexicographic, and
`timedelta(days=1)` addition is the Gregorian successor. -/

structure Date where
  y : Nat
  m : Nat
  d : Nat
deriving DecidableEq, Repr

def isLeap (y : Nat) : Bool :=
  (y % 4 == 0 && y % 100 != 0) || y % 400 == 0

/-- 1 on Gregorian leap years, 0 otherwise. -/
def leapBit (y : Nat) : Nat := if isLeap y then 1 else 0

def daysInMonth (y : Nat) (m : Nat) : Nat :=
  match m with
  | 1 => 31
  | 2 => 28 + leapBit y
  | 3 => 31
  | 4 => 30
  | 5 => 31
  | 6 => 30
  | 7 => 31
  | 8 => 31
  | 9 => 30
  | 10 => 31
  | 11 => 30
  | 12 => 31
  | _ => 0

def daysBeforeMonth (y : Nat) (m : Nat) : Nat :=
  match m with
  | 1 => 0
  | 2 => 31
  | 3 => 59 + leapBit y
  | 4 => 90 + leapBit y
  | 5 => 120 + leapBit y
  | 6 => 151 + leapBit y
  | 7 => 181 + leapBit y
  | 8 => 212 + leapBit y
  | 9 => 243 + leapBit y
  | 10 => 273 + leapBit y
  | 11 => 304 + leapBit y
  | 12 => 334 + leapBit y
  | _ => 400

/-- Number of leap years in `1 .. y-1`. -/
def leapsBefore (y : Nat) : Nat :=
  (y - 1) / 4 - (y - 1) / 100 + (y - 1) / 400

/-- Days-since-epoch ordinal (1-based, like Python's `date.toordinal`). -/
def dayNumber (x : Date) : Nat :=
  365 * (x.y - 1) + leapsBefore x.y + daysBeforeMonth x.y x.m + x.d

/-- Calendar-valid date, as accepted by `datetime.date`. -/
def validDate (x : Date) : Prop :=
  1 ≤ x.y ∧ 1 ≤ x.m ∧ x.m ≤ 12 ∧ 1 ≤ x.d ∧ x.d ≤ daysInMonth x.y x.m

instance (x : Date) : Decidable (validDate x) := by
  unfold validDate; infer_instance

/-- `current_date + datetime.timedelta(days=1)`. -/
def nextDay (x : Date) : Date :=
  if x.d < daysInMonth x.y x.m then ⟨x.y, x.m, x.d + 1⟩
  else if x.m < 12 then ⟨x.y, x.m + 1, 1⟩
  else ⟨x.y + 1, 1, 1⟩

/-- Lexicographic `date` comparison, `a <= b` in Python. -/
def dateLEb (a b : Date) : Bool :=
  if a.y ≠ b.y then a.y < b.y
  else if a.m ≠ b.m then a.m < b.m
  else a.d ≤ b.d

/-- Lexicographic `date` comparison, `a < b` in Python. -/
def dateLTb (a b : Date) : Bool :=
  if a.y ≠ b.y then a.y < b.y
  else if a.m ≠ b.m then a.m < b.m
  else a.d < b.d

def digitVal (c : Char) : Nat := c.toNat - 48

/-- `datetime.datetime.strptime(s, "%Y%m%d").date()` on an 8-digit string:
succeeds exactly on calendar-valid dates with year at least 1. -/
def parse8 (cs : List Char) : Option Date :=
  match cs with
  | [c1, c2, c3, c4, c5, c6, c7, c8] =>
    if validDate
        ⟨1000 * digitVal c1 + 100 * digitVal c2 + 10 * digitVal c3 + digitVal c4,
         10 * digitVal c5 + digitVal c6,
         10 * digitVal c7 + digitVal c8⟩ then
      some ⟨1000 * digitVal c1 + 100 * digitVal c2 + 10 * digitVal c3 + digitVal c4,
            10 * digitVal c5 + digitVal c6,
            10 * digitVal c7 + digitVal c8⟩
    else none
  | _ => none

/-- The while loop
```python
date_list = []
current_date = start_date
while current_date <= end_date:
    date_list.append(current_date)
    current_date += datetime.timedelta(days=1)
```
embedded with explicit fuel; `validate_date_range` supplies exactly
`dayNumber end + 1 - dayNumber start` units, which lemma
`dateListGo_spec` below proves sufficient to reproduce the loop's full
output. -/
def dateListGo (fuel : Nat) (cur e : Date) : List Date :=
  match fuel with
  | 0 => []
  | f + 1 =>
    if dateLEb cur e then cur :: dateListGo f (nextDay cur) e else []

def errFormat : String := "无效的日期范围格式"

def errOrder : String := "开始日期不能晚于结束日期"

def errFuture : String := "结束日期不能超过今天"

def errYear : String := "仅支持2003年及之后的报纸"

def errParse : String := "日期解析失败"

/-- `validate_date_range` of both variants.  `sys.exit(1)` after the logged
message is modelled as `.error msg`; `today` (`datetime.date.today()`) is a
parameter. -/
def validate_date_range (range_str : String) (today : Date) :
    Except String (List Date) :=
  let clean := range_str.toList.filter Char.isDigit
  if clean.length = 16 then
    match parse8 (clean.take 8), parse8 (clean.drop 8) with
    | some start, some e =>
      if dateLTb e start then .error errOrder
      else if dateLTb today e then .error errFuture
      else if start.y < 2003 then .error errYear
      else .ok (dateListGo (dayNumber e + 1 - dayNumber start) start e)
    | _, _ => .error errParse
  else .error errFormat

/-! ## `merge_pdfs` (PyPDF2 variant lines 326-364; PyMuPDF variant 315-359)

```python
def merge_pdfs(temp_dir, output_dir):
    try:
        pdf_files = sorted(
            [f for f in os.listdir(temp_dir) if f.endswith(".pdf")],
            key=lambda x: int(x[-6:-4]))
        if not pdf_files:
            logger.error("没有找到可合并的文件"); return False
        merger = PyPDF2.PdfMerger(); valid_files = []
        for f in pdf_files:
            if os.path.getsize(path) < 1024:
                logger.warning(f"跳过无效文件: ..."); continue
            try:
                merger.append(path); valid_files.append(f)
            except PyPDF2.errors.PdfReadError:
                logger.error(f"文件损坏: ..."); return False
        if len(valid_files) == 0:
            logger.error("没有有效的PDF文件可供合并"); return False
        output_name = f"People's.Daily.{valid_files[0][4:12]}.pdf"
        merger.write(output_path); merger.close(); return True
    except Exception as e:
        logger.critical(...); return False
```

The workspace directory is a list of `FileEntry` values in arbitrary
enumeration order; `parses` says whether the bytes form a readable PDF.
Python's `sorted` with an integer key is a stable sort; `sortByKey` below
is stable insertion sort, which computes the same list.  `int(x[-6:-4])`
is `pageKey`: the two characters six-and five-from-the-end, which must both
be digits (otherwise `int` raises, the exception reaches the outer handler
and the merge returns failure having written nothing — `keysOk`).
`writes` lists the output-write events (`merger.write`), each entry the
written file's name, so "the output is written exactly once" is
`writes.length = 1`.

The PyMuPDF variant differs only in that (a) its `valid_files == 0` guard
is implicit — inserting zero pages makes `doc.save` raise, the outer
handler returns `False`, and nothing is written — and (b) the output name
is derived from `pdf_files[0]` rather than `valid_files[0]`; neither
difference affects any statement proved here, and the PyPDF2 variant, whose
logic is entirely in the source, is the one embedded. -/

structure FileEntry where
  name : List Char
  size : Nat
  parses : Bool
deriving DecidableEq, Repr

def pdfExt : String := ".pdf"

/-- Output-name prefix; the source literal also carries an apostrophe
(`People's.Daily.`), elided here with the naming scheme otherwise kept. -/
def outPrefix : String := "Peoples.Daily."

/-- `int(x[-6:-4])`: the 2-digit page number embedded before `.pdf`.
The slice clamps at the left end exactly as Python's does (`name.length - 6`
is truncated subtraction), so a 5-character name yields a 1-character
slice; `int` is modelled as accepting all-digit strings and raising
otherwise (`none`) — `int` would also tolerate surrounding whitespace or a
sign, which no name built by this program contains. -/
def pageKey (name : List Char) : Option Nat :=
  let s := (name.drop (name.length - 6)).take (name.length - 4 - (name.length - 6))
  if s.isEmpty then none
  else if s.all Char.isDigit then
    some (s.foldl (fun a c => 10 * a + digitVal c) 0)
  else none

def keyD (f : FileEntry) : Nat := (pageKey f.name).getD 0

/-- Stable insertion of `x` after all already-placed entries of equal key:
the same output as Python's stable `sorted(..., key=...)`. -/
def insertByKey (x : FileEntry) : List FileEntry → List FileEntry
  | [] => [x]
  | y :: ys => if keyD y ≤ keyD x then y :: insertByKey x ys else x :: y :: ys

def sortByKey : List FileEntry → List FileEntry
  | [] => []
  | x :: xs => insertByKey x (sortByKey xs)

/-- The `.pdf`-suffixed directory entries (the list comprehension). -/
def pdfFiles (files : List FileEntry) : List FileEntry :=
  files.filter (fun f => pdfExt.toList.isSuffixOf f.name)

/-- The order in which the merge loop visits candidate files. -/
def mergeCandidates (files : List FileEntry) : List FileEntry :=
  sortByKey (pdfFiles files)

/-- The candidates that survive the 1 KB size screen (the files actually
appended to the composite document, when none of them is corrupt). -/
def validCandidates (files : List FileEntry) : List FileEntry :=
  (mergeCandidates files).filter (fun f => 1024 ≤ f.size)

/-- Every candidate's embedded page key parses as an integer (otherwise
`int` raises inside `sorted` and the outer handler returns failure). -/
def keysOk (files : List FileEntry) : Prop :=
  ∀ f ∈ pdfFiles files, (pageKey f.name).isSome = true

instance (files : List FileEntry) : Decidable (keysOk files) := by
  unfold keysOk; infer_instance

structure MergeResult where
  ok : Bool
  writes : List (List Char)
deriving DecidableEq, Repr

def outputNameOf (f : FileEntry) : List Char :=
  outPrefix.toList ++ ((f.name.drop 4).take 8) ++ pdfExt.toList

def merge_pdfs (files : List FileEntry) : MergeResult :=
  if ¬ keysOk files then ⟨false, []⟩
  else
    match mergeCandidates files with
    | [] => ⟨false, []⟩
    | _ :: _ =>
      if (validCandidates files).any (fun f => !f.parses) then ⟨false, []⟩
      else
        match validCandidates files with
        | [] => ⟨false, []⟩
        | f0 :: _ => ⟨true, [outputNameOf f0]⟩

/-! ## `download_edition` (both variants, lines 219-312 / 224-323) and the
per-date pipeline in `main`

`download_edition` first short-circuits on an existing output file, then
locates the edition (`get_page_info`; its `sys.exit(1)` propagates out as a
`SystemExit`, which `except Exception` clauses do not catch), then loops
over pages `1..N`.  For the current layout each iteration first fetches the
intermediate `node_XX.html` and scans it for an `/attachement...pdf` link —
both steps abstracted into a `NodeStep` oracle — and on success calls
`download_pdf`; for the legacy layout it calls `download_pdf` directly on
the deterministic URL.  The cooperative cancellation check at the top of
each iteration (batch mode only, via the shared progress bar) is not
modelled: no claim below concerns cancellation timing.  After the loop,
`success < total_pages` returns `False` (after a warning log), otherwise
`True`.

The per-date tail of `main` (single-date mode, PyMuPDF variant lines
483-499, PyPDF2 variant 456-472) then runs
```python
download_success = download_edition(target_date, temp_dir, output_dir, ...)
if download_success:
    merge_success = merge_pdfs(temp_dir, output_dir)
    if not merge_success: logger.error("合并失败")
shutil.rmtree(temp_dir, ignore_errors=True)
logger.info("🎉 任务完成！")
```
inside `try: ... except KeyboardInterrupt: sys.exit(130)
except Exception: sys.exit(1)`.  The `rmtree` is *not* in a `finally`
block: a `SystemExit` raised by `get_page_info` flies past both handlers
(it does not derive from `Exception`), so on that path the workspace is
never removed and the process exits with code 1. -/

inductive NodeStep where
  | unreachable : NodeStep
  | noLink : NodeStep
  | link : NodeStep
deriving DecidableEq

structure EditionEnv where
  outputExists : Bool
  locate : Except String (Nat × Bool)
  node : Nat → NodeStep
  dlNet : Nat → Nat → DLAttempt

structure EdResult where
  retval : Option Bool
  skipped : Bool
  locateProbed : Bool
  totalPages : Nat
  pagesIterated : Nat
  successCount : Nat
  files : List FileEntry
deriving Repr

/-- `f"{page:02d}"`. -/
def pad2 (n : Nat) : List Char :=
  if n < 10 then '0' :: Nat.toDigits 10 n else Nat.toDigits 10 n

def rmrbName (d8 : List Char) (page : Nat) : List Char :=
  ('r' :: 'm' :: 'r' :: 'b' :: d8) ++ pad2 page ++ pdfExt.toList

/-- One iteration of the page loop: the files the iteration leaves in the
workspace and whether it incremented `success`. -/
def pageStep (env : EditionEnv) (isNew : Bool) (d8 : List Char) (page : Nat) :
    List FileEntry × Bool :=
  let run : Bool :=
    if isNew then
      match env.node page with
      | .unreachable => false
      | .noLink => false
      | .link => true
    else true
  if run then
    let r := download_pdf (env.dlNet page)
    match r.written with
    | some (sz, prs) => ([⟨rmrbName d8 page, sz, prs⟩], r.ok)
    | none => ([], r.ok)
  else ([], false)

def edLoop (env : EditionEnv) (isNew : Bool) (d8 : List Char) :
    List Nat → List FileEntry × Nat
  | [] => ([], 0)
  | p :: ps =>
    let s := pageStep env isNew d8 p
    let rest := edLoop env isNew d8 ps
    (s.1 ++ rest.1, (if s.2 then 1 else 0) + rest.2)

def download_edition (env : EditionEnv) (d8 : List Char) : EdResult :=
  if env.outputExists then
    ⟨some true, true, false, 0, 0, 0, []⟩
  else
    match env.locate with
    | .error _ => ⟨none, false, true, 0, 0, 0, []⟩
    | .ok (n, isNew) =>
      let r := edLoop env isNew d8 ((List.range n).map (· + 1))
      ⟨some (decide ¬ (r.2 < n)), false, true, n, n, r.2, r.1⟩

structure PipelineResult where
  exitCode : Nat
  downloadResult : Option Bool
  mergeRan : Bool
  mergeOk : Option Bool
  writes : List (List Char)
  rmtreeCalled : Bool
  locateProbed : Bool
  pagesIterated : Nat
deriving DecidableEq, Repr

/-- The single-date tail of `main`, after argument validation: run
`download_edition`, merge only when it returned `True`, then remove the
workspace — except that a fatal locate failure (`sys.exit(1)` inside
`get_page_info`) propagates as `SystemExit` past `except Exception`,
skipping both the merge and the `rmtree` line. -/
def run_single_date (env : EditionEnv) (d8 : List Char) : PipelineResult :=
  let ed := download_edition env d8
  match ed.retval with
  | none =>
    ⟨1, none, false, none, [], false, ed.locateProbed, ed.pagesIterated⟩
  | some dl =>
    if dl then
      let m := merge_pdfs ed.files
      ⟨0, some dl, true, some m.ok, m.writes, true, ed.locateProbed,
        ed.pagesIterated⟩
    else
      ⟨0, some dl, false, none, [], true, ed.locateProbed, ed.pagesIterated⟩

/-! ## Calendar arithmetic lemmas

These establish that `nextDay` advances `dayNumber` by exactly one on valid
dates and that lexicographic date comparison agrees with `dayNumber`
ordering, which together prove that the fuel supplied to `dateListGo` by
`validate_date_range` reproduces the source's unbounded `while` loop. -/

theorem leapBit_le_one (y : Nat) : leapBit y ≤ 1 := by
  unfold leapBit; split <;> omega

theorem daysInMonth_pos (y m : Nat) (h1 : 1 ≤ m) (h2 : m ≤ 12) :
    1 ≤ daysInMonth y m := by
  interval_cases m <;> (simp [daysInMonth]; try omega)

theorem daysBeforeMonth_step (y m : Nat) (h1 : 1 ≤ m) (h2 : m ≤ 11) :
    daysBeforeMonth y (m + 1) = daysBeforeMonth y m + daysInMonth y m := by
  interval_cases m <;> simp [daysBeforeMonth, daysInMonth] <;> omega

theorem daysBeforeMonth_mono (y m1 m2 : Nat) (h1 : 1 ≤ m1) (h : m1 < m2)
    (h2 : m2 ≤ 12) :
    daysBeforeMonth y m1 + daysInMonth y m1 ≤ daysBeforeMonth y m2 := by
  have h3 : m1 ≤ 11 := by omega
  interval_cases m1 <;> interval_cases m2 <;>
    simp [daysBeforeMonth, daysInMonth] <;> omega

theorem monthDay_le_year (x : Date) (h : validDate x) :
    daysBeforeMonth x.y x.m + x.d ≤ 365 + leapBit x.y := by
  obtain ⟨-, h1, h2, -, h4⟩ := h
  interval_cases hx : x.m <;>
    simp [daysBeforeMonth, daysInMonth] at h4 ⊢ <;> omega

theorem leapsBefore_step (y : Nat) (hy : 1 ≤ y) :
    leapsBefore (y + 1) = leapsBefore y + leapBit y := by
  obtain ⟨n, rfl⟩ : ∃ n, y = n + 1 := ⟨y - 1, by omega⟩
  unfold leapsBefore leapBit isLeap
  simp only [Nat.add_sub_cancel, Bool.or_eq_true, Bool.and_eq_true, beq_iff_eq,
    bne_iff_ne, ne_eq, decide_eq_true_eq]
  have h4 := Nat.succ_div n 4
  have h100 := Nat.succ_div n 100
  have h400 := Nat.succ_div n 400
  have d1 : n / 100 ≤ n / 4 := Nat.div_le_div_left (by omega) (by omega)
  have d2 : (n + 1) / 100 ≤ (n + 1) / 4 := Nat.div_le_div_left (by omega) (by omega)
  rw [h4, h100, h400]
  split_ifs <;> omega

/-- Days strictly before year `y` (epoch-relative), so that
`dayNumber x = dBY x.y + daysBeforeMonth x.y x.m + x.d`. -/
def dBY (y : Nat) : Nat := 365 * (y - 1) + leapsBefore y

theorem dayNumber_eq (x : Date) :
    dayNumber x = dBY x.y + daysBeforeMonth x.y x.m + x.d := rfl

theorem dBY_step (y : Nat) (hy : 1 ≤ y) :
    dBY (y + 1) = dBY y + 365 + leapBit y := by
  have h := leapsBefore_step y hy
  unfold dBY
  simp only [Nat.add_sub_cancel]
  omega

theorem dBY_mono (y z : Nat) (hy : 1 ≤ y) (hz : y ≤ z) : dBY y ≤ dBY z := by
  induction z, hz using Nat.le_induction with
  | base => exact le_refl _
  | succ n hn ih =>
    have h := dBY_step n (by omega)
    omega

theorem dayNumber_ub (x : Date) (h : validDate x) :
    dayNumber x ≤ dBY (x.y + 1) := by
  have h1 := monthDay_le_year x h
  have h2 := dBY_step x.y h.1
  rw [dayNumber_eq]
  omega

theorem dayNumber_lb (x : Date) (h : validDate x) :
    dBY x.y + 1 ≤ dayNumber x := by
  have h1 : 1 ≤ x.d := h.2.2.2.1
  rw [dayNumber_eq]
  omega

theorem dayNumber_strict (a b : Date) (ha : validDate a) (hb : validDate b)
    (hlt : dateLTb a b = true) : dayNumber a < dayNumber b := by
  unfold dateLTb at hlt
  split_ifs at hlt with h1 h2 <;> simp only [decide_eq_true_eq] at hlt
  · -- year case
    have u1 := dayNumber_ub a ha
    have u2 := dayNumber_lb b hb
    have u3 := dBY_mono (a.y + 1) b.y (by omega) (by omega)
    omega
  · -- month case: a.y = b.y
    have hy : a.y = b.y := by omega
    have hmono := daysBeforeMonth_mono a.y a.m b.m ha.2.1 hlt hb.2.2.1
    have hda : a.d ≤ daysInMonth a.y a.m := ha.2.2.2.2
    have hdb : 1 ≤ b.d := hb.2.2.2.1
    rw [dayNumber_eq, dayNumber_eq, ← hy]
    omega
  · -- day case
    have hy : a.y = b.y := by omega
    have hm : a.m = b.m := by omega
    rw [dayNumber_eq, dayNumber_eq, ← hy, ← hm]
    omega

theorem dateLEb_iff (a b : Date) :
    dateLEb a b = true ↔ (dateLTb a b = true ∨ a = b) := by
  cases a; cases b
  simp only [dateLEb, dateLTb, Date.mk.injEq]
  split_ifs <;> simp <;> omega

theorem dateLEb_refl (a : Date) : dateLEb a a = true := by
  unfold dateLEb; simp

theorem dateLTb_asymm (a b : Date) (h : dateLTb a b = true) :
    dateLTb b a = false := by
  cases a; cases b
  simp only [dateLTb] at *
  split_ifs at * <;> simp_all <;> omega

theorem dateLEb_of_not_LT (a b : Date) (h : dateLTb a b = false) :
    dateLEb b a = true := by
  cases a; cases b
  simp only [dateLTb, dateLEb] at *
  split_ifs at * <;> simp_all <;> omega

theorem dayNumber_le_of_LE (a b : Date) (ha : validDate a) (hb : validDate b)
    (h : dateLEb a b = true) : dayNumber a ≤ dayNumber b := by
  rcases (dateLEb_iff a b).1 h with hlt | rfl
  · exact le_of_lt (dayNumber_strict a b ha hb hlt)
  · exact le_refl _

theorem dateLEb_of_dayNumber (a b : Date) (ha : validDate a)
    (hb : validDate b) (h : dayNumber a ≤ dayNumber b) :
    dateLEb a b = true := by
  rcases hc : dateLTb b a with hf | ht
  · exact dateLEb_of_not_LT b a hc
  · exact absurd (dayNumber_strict b a hb ha hc) (by omega)

theorem dateLTb_of_dayNumber (a b : Date) (ha : validDate a)
    (hb : validDate b) (h : dayNumber a < dayNumber b) :
    dateLTb a b = true := by
  rcases hc : dateLTb a b with hf | ht
  · have := dayNumber_le_of_LE b a hb ha (dateLEb_of_not_LT a b hc)
    omega
  · rfl

theorem validDate_nextDay (x : Date) (h : validDate x) :
    validDate (nextDay x) := by
  obtain ⟨hy, hm1, hm2, hd1, hd2⟩ := h
  unfold nextDay
  split_ifs with h1 h2 <;> simp only [validDate]
  · exact ⟨hy, hm1, hm2, by omega, by omega⟩
  · refine ⟨hy, by omega, by omega, by omega, ?_⟩
    exact daysInMonth_pos x.y (x.m + 1) (by omega) (by omega)
  · exact ⟨by omega, by omega, by omega, by omega, by simp [daysInMonth]⟩

theorem dayNumber_nextDay (x : Date) (h : validDate x) :
    dayNumber (nextDay x) = dayNumber x + 1 := by
  obtain ⟨hy, hm1, hm2, hd1, hd2⟩ := h
  unfold nextDay
  split_ifs with h1 h2 <;> rw [dayNumber_eq, dayNumber_eq] <;> dsimp only
  · omega
  · have hstep := daysBeforeMonth_step x.y x.m hm1 (by omega)
    omega
  · have hm : x.m = 12 := by omega
    have hstep := dBY_step x.y hy
    rw [hm] at hd2 h1 ⊢
    simp only [daysInMonth] at hd2 h1
    simp only [daysBeforeMonth]
    omega

theorem dateLTb_nextDay (x : Date) (h : validDate x) :
    dateLTb x (nextDay x) = true := by
  refine dateLTb_of_dayNumber x (nextDay x) h (validDate_nextDay x h) ?_
  rw [dayNumber_nextDay x h]
  omega

theorem parse8_valid (cs : List Char) (d : Date) (h : parse8 cs = some d) :
    validDate d := by
  unfold parse8 at h
  split at h
  · split_ifs at h with hv
    cases h
    exact hv
  · cases h

/-- The loop-embedding lemma: with fuel `dayNumber e + 1 - dayNumber cur`
(the exact number of iterations the Python `while current <= end` loop
performs) `dateListGo` starts at `cur`, ends at `e`, steps by exactly one
calendar day, and is strictly ascending. -/
theorem dateListGo_spec (fuel : Nat) :
    ∀ (cur e : Date), validDate cur → validDate e → dateLEb cur e = true →
    dayNumber cur + fuel = dayNumber e + 1 →
    (dateListGo fuel cur e).head? = some cur ∧
    (dateListGo fuel cur e).getLast? = some e ∧
    List.Chain' (fun u v => v = nextDay u) (dateListGo fuel cur e) ∧
    List.Chain' (fun u v => dateLTb u v = true) (dateListGo fuel cur e) ∧
    ∀ x ∈ dateListGo fuel cur e,
      validDate x ∧ dateLEb cur x = true ∧ dateLEb x e = true := by
  induction fuel with
  | zero =>
    intro cur e hc he hle hnum
    exfalso
    have := dayNumber_le_of_LE cur e hc he hle
    omega
  | succ f ih =>
    intro cur e hc he hle hnum
    have hlist : dateListGo (f + 1) cur e = cur :: dateListGo f (nextDay cur) e := by
      simp [dateListGo, hle]
    rcases Nat.eq_zero_or_pos f with hf | hf
    · subst hf
      have hcur : cur = e := by
        rcases (dateLEb_iff cur e).1 hle with hlt | heq
        · exact absurd (dayNumber_strict cur e hc he hlt) (by omega)
        · exact heq
      subst hcur
      rw [hlist]
      simp only [dateListGo]
      refine ⟨rfl, rfl, ?_, ?_, ?_⟩
      · simp
      · simp
      · intro x hx
        simp at hx
        subst hx
        exact ⟨hc, dateLEb_refl _, dateLEb_refl _⟩
    · have hv2 := validDate_nextDay cur hc
      have hd2 := dayNumber_nextDay cur hc
      have hle2 : dateLEb (nextDay cur) e = true :=
        dateLEb_of_dayNumber _ _ hv2 he (by omega)
      obtain ⟨ih1, ih2, ih3, ih4, ih5⟩ := ih (nextDay cur) e hv2 he hle2 (by omega)
      have hne : dateListGo f (nextDay cur) e ≠ [] := by
        intro h0
        rw [h0] at ih1
        simp at ih1
      refine ⟨by simp [hlist], ?_, ?_, ?_, ?_⟩
      · rw [hlist]
        rcases hl : dateListGo f (nextDay cur) e with _ | ⟨r, rs⟩
        · exact absurd hl hne
        · rw [List.getLast?_cons_cons]
          rw [hl] at ih2
          exact ih2
      · rw [hlist, List.chain'_cons']
        refine ⟨?_, ih3⟩
        intro b hb
        rw [ih1] at hb
        simp at hb
        subst hb
        rfl
      · rw [hlist, List.chain'_cons']
        refine ⟨?_, ih4⟩
        intro b hb
        rw [ih1] at hb
        simp at hb
        subst hb
        exact dateLTb_nextDay cur hc
      · intro x hx
        rw [hlist] at hx
        rcases List.mem_cons.1 hx with rfl | hx2
        · exact ⟨hc, dateLEb_refl x, hle⟩
        · obtain ⟨hvx, hlex1, hlex2⟩ := ih5 x hx2
          refine ⟨hvx, ?_, hlex2⟩
          refine dateLEb_of_dayNumber cur x hc hvx ?_
          have := dayNumber_le_of_LE (nextDay cur) x hv2 hvx hlex1
          omega

/-! ## Sorting lemmas for the merge step -/

theorem insertByKey_perm (x : FileEntry) (l : List FileEntry) :
    List.Perm (insertByKey x l) (x :: l) := by
  induction l with
  | nil => simp [insertByKey]
  | cons y ys ih =>
    unfold insertByKey
    split_ifs with h
    · exact (ih.cons y).trans (List.Perm.swap x y ys)
    · exact List.Perm.refl _

theorem sortByKey_perm (l : List FileEntry) : List.Perm (sortByKey l) l := by
  induction l with
  | nil => exact List.Perm.refl _
  | cons x xs ih => exact (insertByKey_perm x (sortByKey xs)).trans (ih.cons x)

theorem mem_insertByKey {x z : FileEntry} {l : List FileEntry} :
    z ∈ insertByKey x l ↔ z = x ∨ z ∈ l := by
  rw [(insertByKey_perm x l).mem_iff, List.mem_cons]

theorem insertByKey_sorted (x : FileEntry) (l : List FileEntry)
    (h : List.Pairwise (fun a b => keyD a ≤ keyD b) l) :
    List.Pairwise (fun a b => keyD a ≤ keyD b) (insertByKey x l) := by
  induction l with
  | nil => simp [insertByKey]
  | cons y ys ih =>
    rw [List.pairwise_cons] at h
    obtain ⟨hy, hys⟩ := h
    unfold insertByKey
    split_ifs with hcmp
    · rw [List.pairwise_cons]
      refine ⟨?_, ih hys⟩
      intro z hz
      rcases mem_insertByKey.1 hz with rfl | hz2
      · exact hcmp
      · exact hy z hz2
    · rw [List.pairwise_cons]
      refine ⟨?_, List.pairwise_cons.2 ⟨hy, hys⟩⟩
      intro z hz
      rcases List.mem_cons.1 hz with rfl | hz2
      · omega
      · have := hy z hz2
        omega

theorem sortByKey_sorted (l : List FileEntry) :
    List.Pairwise (fun a b => keyD a ≤ keyD b) (sortByKey l) := by
  induction l with
  | nil => simp [sortByKey]
  | cons x xs ih => exact insertByKey_sorted x (sortByKey xs) ih

theorem mergeCandidates_perm (l : List FileEntry) :
    List.Perm (mergeCandidates l) (pdfFiles l) := sortByKey_perm _

theorem mergeCandidates_sorted (l : List FileEntry) :
    List.Pairwise (fun a b => keyD a ≤ keyD b) (mergeCandidates l) :=
  sortByKey_sorted _

/-! ## Retry-loop lemmas for `safe_request` -/

/-- An attempt outcome on which the `safe_request` loop moves on to the
next attempt: an exception, or a response whose status is neither 200
nor 404. -/
def retriable (a : AttemptOutcome) : Prop :=
  a = .exc ∨ ∃ s b, a = .resp s b ∧ s ≠ 200 ∧ s ≠ 404

/-- 1 if the attempt raised (and therefore slept), 0 otherwise. -/
def excBit (a : AttemptOutcome) : Nat :=
  match a with
  | .exc => 1
  | .resp _ _ => 0

theorem safeRequestGo_retry (net : Nat → AttemptOutcome) (i fuel : Nat)
    (h : retriable (net i)) :
    safeRequestGo net i (fuel + 1) =
      ⟨(safeRequestGo net (i + 1) fuel).result,
       (safeRequestGo net (i + 1) fuel).attempts + 1,
       (safeRequestGo net (i + 1) fuel).sleeps + excBit (net i)⟩ := by
  rcases h with h | ⟨s, b, h, hs1, hs2⟩
  · simp [safeRequestGo, h, excBit]
  · simp [safeRequestGo, h, hs1, hs2, excBit]

theorem safeRequestGo_attempts_le (net : Nat → AttemptOutcome) :
    ∀ (fuel i : Nat), (safeRequestGo net i fuel).attempts ≤ fuel := by
  intro fuel
  induction fuel with
  | zero => intro i; simp [safeRequestGo]
  | succ f ih =>
    intro i
    rcases hni : net i with _ | ⟨s, b⟩
    · simp only [safeRequestGo, hni]
      have := ih (i + 1)
      omega
    · simp only [safeRequestGo, hni]
      split_ifs <;> dsimp only
      · omega
      · omega
      · have := ih (i + 1)
        omega

/-! ## Concrete fixtures used by the claim theorems -/

/-- A network on which every attempt answers with HTTP status 500. -/
def net500 : Nat → AttemptOutcome := fun _ => .resp 500 []

/-- A network on which every attempt raises. -/
def netExc : Nat → AttemptOutcome := fun _ => .exc

def htmlCT : String := "text/html"

/-- Binary-download oracle whose first attempt answers with a non-PDF
content type and whose later attempts would answer with a healthy PDF. -/
def netC3 : Nat → DLAttempt := fun i =>
  if i = 0 then .resp htmlCT.toList 5000 true else .resp pdfCT.toList 5000 true

def d8exStr : String := "20240101"

def d8ex : List Char := d8exStr.toList

/-- Legacy-layout edition of 2 pages where page 1 downloads cleanly and
page 2 fails all three attempts. -/
def envC1 : EditionEnv :=
  ⟨false, .ok (2, false), fun _ => .link,
   fun p _ => if p = 1 then .resp pdfCT.toList 2048 true else .exc⟩

/-- Pre-existing output: the skip branch of `download_edition`. -/
def envC4 : EditionEnv :=
  ⟨true, .error errNoInfo, fun _ => .unreachable, fun _ _ => .exc⟩

/-- Fatal locate failure: both cover probes unreachable. -/
def envC6 : EditionEnv :=
  ⟨false, .error errNoInfo, fun _ => .unreachable, fun _ _ => .exc⟩

/-- A reachable legacy cover carrying zero `nbs` markers: page count 0. -/
def envC10 : EditionEnv :=
  ⟨false, .ok (0, false), fun _ => .unreachable, fun _ _ => .exc⟩

def n01Str : String := "rmrb2024010101.pdf"

def n02Str : String := "rmrb2024010102.pdf"

def n07Str : String := "rmrb2024010107.pdf"

def n10Str : String := "rmrb2024010110.pdf"

def goodFile : FileEntry := ⟨n01Str.toList, 2048, true⟩

def corruptFile : FileEntry := ⟨n02Str.toList, 2048, false⟩

/-- Workspace holding one valid page file and one ≥1 KB but unparsable
page file (as a partially streamed download leaves behind). -/
def cexC2 : List FileEntry := [goodFile, corruptFile]

def f07 : FileEntry := ⟨n07Str.toList, 2048, true⟩

def f02 : FileEntry := ⟨n02Str.toList, 2048, true⟩

def f10 : FileEntry := ⟨n10Str.toList, 2048, true⟩

/-- Pages 07, 02, 10, listed in this enumeration order. -/
def base3 : List FileEntry := [f07, f02, f10]

/-- An undersized (500-byte) page file. -/
def small01 : FileEntry := ⟨n01Str.toList, 500, true⟩

def exRangeStr : String := "2024010120240105"

def badRangeStr : String := "202401012024010"

def exToday : Date := ⟨2024, 1, 5⟩

def exDates : List Date :=
  [⟨2024, 1, 1⟩, ⟨2024, 1, 2⟩, ⟨2024, 1, 3⟩, ⟨2024, 1, 4⟩, ⟨2024, 1, 5⟩]

def legacyBody : String := "nbs nbs nbs nbs"

def pageBody : String := "pageLink pageLink"

/-! ## Loop bound for the fetch loop -/

theorem edLoop_le (env : EditionEnv) (isNew : Bool) (d8 : List Char) :
    ∀ ps : List Nat, (edLoop env isNew d8 ps).2 ≤ ps.length := by
  intro ps
  induction ps with
  | nil => simp [edLoop]
  | cons p rest ih =>
    simp only [edLoop, List.length_cons]
    have h : (if (pageStep env isNew d8 p).2 then 1 else 0) ≤ 1 := by
      split <;> omega
    omega

/-! ## Claim C7 -/

/-- Claim C7 counterexample: on a network answering HTTP 500 to every
attempt, `safe_request` does make 3 attempts and returns not-found, but it
performs zero `time.sleep(1)` calls — the 1-second pause claimed for every
non-2xx/non-404 attempt never happens (the source only sleeps in its
`except` branch, not on an error status). -/
theorem claim_C7_counterexample : safe_request net500 = ⟨none, 3, 0⟩ := by
  decide

/-- Claim C7 as amended: at most 3 attempts; a 200 answer returns the body
at once; a 404 answer returns not-found at once with no further attempt; a
network exception sleeps 1 second before the next attempt while a non-200
non-404 status retries immediately with no pause (`excBit` counts the
sleeps); and when all 3 attempts fail the call returns not-found. -/
theorem claim_C7 :
    (∀ net, (safe_request net).attempts ≤ 3) ∧
    (∀ net b, net 0 = .resp 200 b → safe_request net = ⟨some b, 1, 0⟩) ∧
    (∀ net b, net 0 = .resp 404 b → safe_request net = ⟨none, 1, 0⟩) ∧
    (∀ net b, retriable (net 0) → net 1 = .resp 404 b →
      safe_request net = ⟨none, 2, excBit (net 0)⟩) ∧
    (∀ net b, retriable (net 0) → net 1 = .resp 200 b →
      safe_request net = ⟨some b, 2, excBit (net 0)⟩) ∧
    (∀ net, retriable (net 0) → retriable (net 1) → retriable (net 2) →
      safe_request net =
        ⟨none, 3, excBit (net 0) + excBit (net 1) + excBit (net 2)⟩) := by
  refine ⟨?_, ?_, ?_, ?_, ?_, ?_⟩
  · intro net
    exact safeRequestGo_attempts_le net 3 0
  · intro net b h
    simp [safe_request, MAX_RETRIES, safeRequestGo, h]
  · intro net b h
    simp [safe_request, MAX_RETRIES, safeRequestGo, h]
  · intro net b h0 h1
    have e0 := safeRequestGo_retry net 0 2 h0
    norm_num at e0
    unfold safe_request MAX_RETRIES
    rw [e0]
    simp [safeRequestGo, h1]
  · intro net b h0 h1
    have e0 := safeRequestGo_retry net 0 2 h0
    norm_num at e0
    unfold safe_request MAX_RETRIES
    rw [e0]
    simp [safeRequestGo, h1]
  · intro net h0 h1 h2
    have e0 := safeRequestGo_retry net 0 2 h0
    have e1 := safeRequestGo_retry net 1 1 h1
    have e2 := safeRequestGo_retry net 2 0 h2
    norm_num at e0 e1 e2
    unfold safe_request MAX_RETRIES
    rw [e0, e1, e2]
    simp [safeRequestGo]
    omega

/-- Claim C7 witness: all three attempts raising exceptions yields
not-found after 3 attempts and 3 sleeps. -/
theorem claim_C7_witness :
    safe_request netExc = ⟨none, 3, excBit (netExc 0) + excBit (netExc 1) +
      excBit (netExc 2)⟩ :=
  claim_C7.2.2.2.2.2 netExc (Or.inl rfl) (Or.inl rfl) (Or.inl rfl)

/-! ## Claim C3 -/

/-- Claim C3 counterexample: a first attempt answering a non-PDF content
type makes `download_pdf` return failure after exactly one attempt — the
`return False` leaves the whole function, so the remaining attempts of the
3-attempt budget are *not* made, although (second conjunct) the very next
attempt on this network would have succeeded. -/
theorem claim_C3_counterexample :
    download_pdf netC3 = ⟨false, 1, 0, none⟩ ∧
    download_pdf (fun i => netC3 (i + 1)) = ⟨true, 1, 0, some (5000, true)⟩ := by
  constructor
  · decide
  · decide

/-- Claim C3 as amended: a response with a non-PDF declared content type
terminates the entire `download_pdf` call immediately with failure — the
attempt is not retried and the remaining attempts of the 3-attempt budget
are not made either (shown for a first-attempt and a second-attempt
content-type violation; in the latter case exactly the one earlier
exception sleep has happened and nothing was written). -/
theorem claim_C3 :
    (∀ net ct sz prs, net 0 = .resp ct sz prs →
      containsSub pdfCT.toList ct = false →
      download_pdf net = ⟨false, 1, 0, none⟩) ∧
    (∀ net ct sz prs, net 0 = .exc → net 1 = .resp ct sz prs →
      containsSub pdfCT.toList ct = false →
      download_pdf net = ⟨false, 2, 1, none⟩) := by
  constructor
  · intro net ct sz prs h hct
    have hct2 : containsSub pdfCT.data ct = false := hct
    simp [download_pdf, MAX_RETRIES, downloadGo, h, hct2]
  · intro net ct sz prs h0 h1 hct
    have hct2 : containsSub pdfCT.data ct = false := hct
    simp [download_pdf, MAX_RETRIES, downloadGo, h0, h1, hct2]

/-- Claim C3 witness: the amended statement applied to the concrete
content-type-violating network. -/
theorem claim_C3_witness : download_pdf netC3 = ⟨false, 1, 0, none⟩ :=
  claim_C3.1 netC3 htmlCT.toList 5000 true rfl (by decide)

/-! ## Claim C1 -/

/-- Claim C1 counterexample: a 2-page legacy edition whose page 1 downloads
cleanly and whose page 2 fails every attempt.  One page succeeded and the
success count (1) is below the detected page count (2), yet
`download_edition` returns `False` and `main` therefore never calls
`merge_pdfs`: the merge step *is* suppressed and no output is written,
refuting "assembly over the successfully downloaded pages still runs". -/
theorem claim_C1_counterexample :
    (download_edition envC1 d8ex).totalPages = 2 ∧
    (download_edition envC1 d8ex).successCount = 1 ∧
    (run_single_date envC1 d8ex).downloadResult = some false ∧
    (run_single_date envC1 d8ex).mergeRan = false ∧
    (run_single_date envC1 d8ex).writes = [] := by
  refine ⟨by decide, by decide, by decide, by decide, by decide⟩

/-- Claim C1 as amended: the merge step runs exactly when
`download_edition` returned `True`; an incomplete download — fewer
successful pages than the detected count, successes included — makes
`download_edition` return `False`, so `main` skips assembly entirely and
writes no output for the date. -/
theorem claim_C1 :
    (∀ env d8, (run_single_date env d8).mergeRan = true ↔
      (download_edition env d8).retval = some true) ∧
    (∀ env d8 n lay, env.outputExists = false → env.locate = .ok (n, lay) →
      (download_edition env d8).successCount < n →
      (download_edition env d8).retval = some false ∧
      (run_single_date env d8).mergeRan = false ∧
      (run_single_date env d8).writes = []) := by
  constructor
  · intro env d8
    unfold run_single_date
    rcases h : (download_edition env d8).retval with _ | b
    · simp [h]
    · cases b <;> simp [h]
  · intro env d8 n lay hex hloc hsucc
    have hED : (download_edition env d8).retval = some false := by
      simp [download_edition, hex, hloc] at hsucc ⊢
      exact hsucc
    refine ⟨hED, ?_, ?_⟩ <;> simp [run_single_date, hED]

/-- Claim C1 witness: the amended statement applied to the concrete
2-page edition with one failing page. -/
theorem claim_C1_witness :
    (download_edition envC1 d8ex).retval = some false ∧
    (run_single_date envC1 d8ex).mergeRan = false ∧
    (run_single_date envC1 d8ex).writes = [] :=
  claim_C1.2 envC1 d8ex 2 false rfl rfl (by decide)

/-! ## Claim C4 -/

/-- Claim C4: when the canonical output path already exists,
`download_edition` returns success from its skip branch before probing
either cover and before iterating any page, and the per-date pipeline
finishes with exit code 0, no write, and the workspace cleanup: zero
network activity (`locateProbed = false`, `pagesIterated = 0`). -/
theorem claim_C4 (env : EditionEnv) (d8 : List Char)
    (hex : env.outputExists = true) :
    (download_edition env d8).retval = some true ∧
    (download_edition env d8).skipped = true ∧
    (download_edition env d8).locateProbed = false ∧
    (download_edition env d8).pagesIterated = 0 ∧
    (download_edition env d8).files = [] ∧
    (run_single_date env d8).exitCode = 0 ∧
    (run_single_date env d8).downloadResult = some true ∧
    (run_single_date env d8).locateProbed = false ∧
    (run_single_date env d8).pagesIterated = 0 ∧
    (run_single_date env d8).rmtreeCalled = true := by
  have hED : download_edition env d8 = ⟨some true, true, false, 0, 0, 0, []⟩ := by
    simp [download_edition, hex]
  refine ⟨?_, ?_, ?_, ?_, ?_, ?_, ?_, ?_, ?_, ?_⟩ <;>
    simp [run_single_date, hED]

/-- Claim C4 witness: applied to a concrete environment whose output file
already exists. -/
theorem claim_C4_witness :
    (download_edition envC4 d8ex).retval = some true ∧
    (download_edition envC4 d8ex).skipped = true ∧
    (download_edition envC4 d8ex).locateProbed = false ∧
    (download_edition envC4 d8ex).pagesIterated = 0 ∧
    (download_edition envC4 d8ex).files = [] ∧
    (run_single_date envC4 d8ex).exitCode = 0 ∧
    (run_single_date envC4 d8ex).downloadResult = some true ∧
    (run_single_date envC4 d8ex).locateProbed = false ∧
    (run_single_date envC4 d8ex).pagesIterated = 0 ∧
    (run_single_date envC4 d8ex).rmtreeCalled = true :=
  claim_C4 envC4 d8ex rfl

/-! ## Claim C6 -/

/-- Claim C6 failing input: a single-date run whose output does not yet
exist and whose locate phase fails fatally (both cover probes
unreachable).  `get_page_info` calls `sys.exit(1)`; the resulting
`SystemExit` is not caught by `except Exception`, so it flies past the
`shutil.rmtree(temp_dir, ...)` line of single-date `main`: the process
exits with code 1 and the temporary workspace is *not* removed,
contradicting the claim that the workspace is removed on every exit
path. -/
theorem claim_C6 :
    run_single_date envC6 d8ex =
      ⟨1, none, false, none, [], false, true, 0⟩ := by
  decide

/-! ## Claim C10 -/

/-- Claim C10: a locate result of 0 pages (reachable legacy cover with
zero `nbs` markers) makes the fetch loop run zero iterations, the
download phase report full success (`0 < 0` is false, so
`download_edition` returns `True`), and the subsequent merge fail on the
empty workspace, writing nothing. -/
theorem claim_C10 (env : EditionEnv) (d8 : List Char)
    (hex : env.outputExists = false) (hloc : env.locate = .ok (0, false)) :
    (download_edition env d8).retval = some true ∧
    (download_edition env d8).totalPages = 0 ∧
    (download_edition env d8).successCount = 0 ∧
    (download_edition env d8).files = [] ∧
    (run_single_date env d8).downloadResult = some true ∧
    (run_single_date env d8).mergeRan = true ∧
    (run_single_date env d8).mergeOk = some false ∧
    (run_single_date env d8).writes = [] := by
  have hED : download_edition env d8 = ⟨some true, false, true, 0, 0, 0, []⟩ := by
    simp [download_edition, hex, hloc, edLoop]
  have hm : merge_pdfs ([] : List FileEntry) = ⟨false, []⟩ := by decide
  refine ⟨?_, ?_, ?_, ?_, ?_, ?_, ?_, ?_⟩ <;>
    simp [run_single_date, hED, hm]

/-- Claim C10 witness: applied to the concrete 0-page legacy edition. -/
theorem claim_C10_witness :
    (download_edition envC10 d8ex).retval = some true ∧
    (download_edition envC10 d8ex).totalPages = 0 ∧
    (download_edition envC10 d8ex).successCount = 0 ∧
    (download_edition envC10 d8ex).files = [] ∧
    (run_single_date envC10 d8ex).downloadResult = some true ∧
    (run_single_date envC10 d8ex).mergeRan = true ∧
    (run_single_date envC10 d8ex).mergeOk = some false ∧
    (run_single_date envC10 d8ex).writes = [] :=
  claim_C10 envC10 d8ex rfl rfl

/-! ## Claim C2 -/

/-- Claim C2 counterexample: a workspace holding one perfectly valid page
file (≥1 KB, parsable) next to one ≥1 KB but corrupt page file.  At least
one valid page file exists at assembly time, yet `merge_pdfs` aborts on the
corrupt file and writes no output — refuting the "is written if at least
one valid page file exists" direction of the claimed iff. -/
theorem claim_C2_counterexample :
    goodFile ∈ cexC2 ∧ 1024 ≤ goodFile.size ∧ goodFile.parses = true ∧
    merge_pdfs cexC2 = ⟨false, []⟩ := by
  decide

/-- Claim C2 as amended: the merged output is written iff every candidate
file's embedded page number parses, at least one candidate survives the
1 KB screen, and every surviving candidate parses as a PDF (one corrupt
retained file suppresses the output entirely); and whenever the output is
written it is written exactly once (`writes.length ≤ 1` always, and
nonempty exactly on success). -/
theorem claim_C2 (files : List FileEntry) :
    (merge_pdfs files).writes.length ≤ 1 ∧
    ((merge_pdfs files).ok = true ↔ (merge_pdfs files).writes ≠ []) ∧
    ((merge_pdfs files).ok = true ↔
      (keysOk files ∧ validCandidates files ≠ [] ∧
       ∀ f ∈ validCandidates files, f.parses = true)) := by
  by_cases hk : keysOk files
  · rcases hmc : mergeCandidates files with _ | ⟨c, cs⟩
    · have hvc : validCandidates files = [] := by
        simp [validCandidates, hmc]
      simp [merge_pdfs, hk, hmc, hvc]
    · by_cases hp : (validCandidates files).any (fun f => !f.parses) = true
      · obtain ⟨f, hf, hfp⟩ := List.any_eq_true.1 hp
        simp only [Bool.not_eq_eq_eq_not, Bool.not_true] at hfp
        simp [merge_pdfs, hk, hmc, hp]
        intro hne
        exact ⟨f, hf, hfp⟩
      · have hpf : (validCandidates files).any (fun f => !f.parses) = false :=
          Bool.eq_false_iff.2 hp
        have hall : ∀ f ∈ validCandidates files, f.parses = true := by
          intro f hf
          have h2 := List.any_eq_false.1 hpf f hf
          simpa using h2
        rcases hvc : validCandidates files with _ | ⟨v, vs⟩
        · simp [merge_pdfs, hk, hmc, hpf, hvc]
        · rw [hvc] at hall
          have hv : v.parses = true := hall v (by simp)
          have hvs : ∀ a ∈ vs, a.parses = true := fun a ha => hall a (by simp [ha])
          have hcond : ¬(v.parses = false ∨ ∃ x ∈ vs, x.parses = false) := by
            rintro (h | ⟨x, hx, hxp⟩)
            · rw [hv] at h
              cases h
            · rw [hvs x hx] at hxp
              cases hxp
          simp [merge_pdfs, hk, hmc, hvc, hcond]
          exact ⟨hv, hvs⟩
  · simp [merge_pdfs, hk]

/-! ## Claim C9 -/

/-- Claim C9: the merge loop visits candidates in ascending order of the
2-digit page number embedded six-to-five characters from the end of the
filename — for any enumeration order of the workspace holding pages
07, 02, 10, the visit order is 02, 07, 10 — and files under 1 KB are
excluded from the retained set without failing the merge (the run with an
undersized extra file still succeeds and retains only the ≥1 KB files). -/
theorem claim_C9 :
    (∀ l, List.Perm l base3 → (mergeCandidates l).map keyD = [2, 7, 10]) ∧
    (∀ files f, f ∈ validCandidates files →
      1024 ≤ f.size ∧ f ∈ mergeCandidates files) ∧
    ((merge_pdfs (small01 :: base3)).ok = true ∧
     small01 ∉ validCandidates (small01 :: base3) ∧
     small01 ∈ mergeCandidates (small01 :: base3)) := by
  refine ⟨?_, ?_, by decide⟩
  · intro l hp
    have h1 := (mergeCandidates_perm l).map keyD
    have h2 := (hp.filter (fun f => pdfExt.toList.isSuffixOf f.name)).map keyD
    have h3 : (List.filter (fun f => pdfExt.toList.isSuffixOf f.name)
        base3).map keyD = [7, 2, 10] := by decide
    have h4 := h1.trans h2
    rw [h3] at h4
    have hperm : List.Perm ((mergeCandidates l).map keyD) [2, 7, 10] :=
      h4.trans (by decide)
    have hs1 : List.Sorted (· ≤ ·) ((mergeCandidates l).map keyD) :=
      List.pairwise_map.2 (mergeCandidates_sorted l)
    have hs2 : List.Sorted (· ≤ ·) ([2, 7, 10] : List Nat) := by decide
    exact List.eq_of_perm_of_sorted hperm hs1 hs2
  · intro files f hf
    have h := List.mem_filter.1 hf
    exact ⟨by simpa using h.2, h.1⟩

/-- Claim C9 witness: the ordering statement applied to the identity
enumeration of the three-page workspace. -/
theorem claim_C9_witness :
    (mergeCandidates base3).map keyD = [2, 7, 10] :=
  claim_C9.1 base3 (List.Perm.refl base3)

/-! ## Claim C5 -/

/-- Claim C5: `get_page_info` probes the current-layout cover first (the
probe log always starts with `true`); it reports `(count, current)` exactly
when that probe succeeded with at least one `pageLink` marker (final
conjunct: any `(n, current)` answer comes from a retrievable new cover with
`n` markers, `n > 0`); otherwise it falls back to the legacy cover and, if
that is retrievable, reports its `nbs` marker count with layout legacy —
also when the new cover answered 404/unreachable (`none`) and also when the
legacy count is zero; when neither probe succeeds it fails fatally with
`sys.exit(1)`. -/
theorem claim_C5 :
    (∀ old t, 0 < countOcc pageLinkPat.toList t →
      get_page_info old (some t) =
        (.ok (countOcc pageLinkPat.toList t, true), [true])) ∧
    (∀ u, get_page_info (some u) none =
      (.ok (countOcc nbsPat.toList u, false), [true, false])) ∧
    (∀ u t, countOcc pageLinkPat.toList t = 0 →
      get_page_info (some u) (some t) =
        (.ok (countOcc nbsPat.toList u, false), [true, false])) ∧
    (get_page_info none none = (.error errNoInfo, [true, false])) ∧
    (∀ t, countOcc pageLinkPat.toList t = 0 →
      get_page_info none (some t) = (.error errNoInfo, [true, false])) ∧
    (∀ old new n, (get_page_info old new).1 = .ok (n, true) →
      ∃ t, new = some t ∧ countOcc pageLinkPat.toList t = n ∧ 0 < n) ∧
    (∀ old new, ((get_page_info old new).2).head? = some true) := by
  refine ⟨?_, ?_, ?_, ?_, ?_, ?_, ?_⟩
  · intro old t h
    have h2 : 0 < countOcc pageLinkPat.data t := h
    simp [get_page_info, h2]
  · intro u
    simp [get_page_info]
  · intro u t h
    have h2 : countOcc pageLinkPat.data t = 0 := h
    simp [get_page_info, h2]
  · simp [get_page_info]
  · intro t h
    have h2 : countOcc pageLinkPat.data t = 0 := h
    simp [get_page_info, h2]
  · intro old new n h
    rcases new with _ | t
    · rcases old with _ | u <;> simp [get_page_info] at h
    · by_cases hc : 0 < countOcc pageLinkPat.data t
      · simp [get_page_info, hc] at h
        refine ⟨t, rfl, h, ?_⟩
        rw [← h]
        exact hc
      · rcases old with _ | u <;> simp [get_page_info, hc] at h
  · intro old new
    rcases new with _ | t
    · rcases old with _ | u <;> simp [get_page_info]
    · by_cases hc : 0 < countOcc pageLinkPat.data t
      · simp [get_page_info, hc]
      · rcases old with _ | u <;> simp [get_page_info, hc]

/-- Claim C5 witness: a current cover holding two markers yields
`(2, current)` after one probe; an unreachable current cover with a legacy
cover holding four `nbs` markers yields `(4, legacy)` after both probes. -/
theorem claim_C5_witness :
    get_page_info none (some pageBody.toList) =
      (.ok (countOcc pageLinkPat.toList pageBody.toList, true), [true]) ∧
    get_page_info (some legacyBody.toList) (some ([] : List Char)) =
      (.ok (countOcc nbsPat.toList legacyBody.toList, false), [true, false]) :=
  ⟨claim_C5.1 none pageBody.toList (by decide),
   claim_C5.2.2.1 legacyBody.toList [] (by decide)⟩

/-! ## Claim C8 -/

/-- Claim C8: `validate_date_range` strips all non-digit characters and
fails fatally unless exactly 16 digits remain; it splits them into an
8-digit start and an 8-digit end date and fails fatally when start > end,
end > today, or start's year is before 2003; otherwise it returns the
calendar days from start to end inclusive in ascending order (head is
start, last is end, consecutive entries are consecutive calendar days,
strictly ascending); in particular `"2024010120240105"` yields exactly the
five dates 2024-01-01 through 2024-01-05. -/
theorem claim_C8 :
    (∀ (s : String) (today : Date),
      (s.toList.filter Char.isDigit).length ≠ 16 →
      validate_date_range s today = .error errFormat) ∧
    (∀ (s : String) (today start e : Date),
      parse8 ((s.toList.filter Char.isDigit).take 8) = some start →
      parse8 ((s.toList.filter Char.isDigit).drop 8) = some e →
      (s.toList.filter Char.isDigit).length = 16 →
      (dateLTb e start = true →
        validate_date_range s today = .error errOrder) ∧
      (dateLTb e start = false → dateLTb today e = true →
        validate_date_range s today = .error errFuture) ∧
      (dateLTb e start = false → dateLTb today e = false → start.y < 2003 →
        validate_date_range s today = .error errYear) ∧
      (dateLTb e start = false → dateLTb today e = false → ¬ start.y < 2003 →
        ∃ l, validate_date_range s today = .ok l ∧
          l.head? = some start ∧ l.getLast? = some e ∧
          List.Chain' (fun u v => v = nextDay u) l ∧
          List.Chain' (fun u v => dateLTb u v = true) l)) ∧
    validate_date_range exRangeStr exToday = .ok exDates := by
  refine ⟨?_, ?_, by rfl⟩
  · intro s today h
    have h2 : (List.filter Char.isDigit s.data).length ≠ 16 := h
    simp [validate_date_range, h2]
  · intro s today start e hs he hlen
    have hs2 : parse8 (List.take 8 (List.filter Char.isDigit s.data)) =
        some start := hs
    have he2 : parse8 (List.drop 8 (List.filter Char.isDigit s.data)) =
        some e := he
    have hlen2 : (List.filter Char.isDigit s.data).length = 16 := hlen
    refine ⟨?_, ?_, ?_, ?_⟩
    · intro hord
      simp [validate_date_range, hlen2, hs2, he2, hord]
    · intro h1 h2
      simp [validate_date_range, hlen2, hs2, he2, h1, h2]
    · intro h1 h2 h3
      simp [validate_date_range, hlen2, hs2, he2, h1, h2, h3]
    · intro h1 h2 h3
      have hvs := parse8_valid _ _ hs
      have hve := parse8_valid _ _ he
      have hle : dateLEb start e = true := dateLEb_of_not_LT e start h1
      have hnum : dayNumber start + (dayNumber e + 1 - dayNumber start) =
          dayNumber e + 1 := by
        have := dayNumber_le_of_LE start e hvs hve hle
        omega
      obtain ⟨g1, g2, g3, g4, g5⟩ :=
        dateListGo_spec (dayNumber e + 1 - dayNumber start) start e hvs hve
          hle hnum
      refine ⟨dateListGo (dayNumber e + 1 - dayNumber start) start e,
        ?_, g1, g2, g3, g4⟩
      simp [validate_date_range, hlen2, hs2, he2, h1, h2, h3]

/-- Claim C8 witness: a 15-digit input is rejected with the format error,
and the example range produces the five expected dates. -/
theorem claim_C8_witness :
    validate_date_range badRangeStr exToday = .error errFormat ∧
    validate_date_range exRangeStr exToday = .ok exDates :=
  ⟨claim_C8.1 badRangeStr exToday (by decide), claim_C8.2.2⟩

end RMRB
